import Mathlib

/-!
Verification development for the hybrid retrieval subsystem of the
OGD-recommendation repository (src/src/vectorstore/): a shallow embedding of
`schemas.py` (`SearchItem.snippet`), `data_store.py` (`DataVectorStore.upsert`,
`DataVectorStore.hybrid_search`), `retriever.py` (`_create_batches`,
`Retriever._batch_results_to_items`, `Retriever.retrieve`) and
`embeddings.py` (`Embedder._cache_dim`, `Embedder.embed_query`,
`Embedder.embed_documents`), together with theorems settling the spec claims.

Modelling conventions:
* Python floats are modelled as rationals (ℚ); only arithmetic on literal
  constants and lengths matters to the claims.
* Python strings are modelled as Lean `String` where only equality matters
  and as `List Char` where character-level slicing matters (`snippet`).
* The Milvus client and the embedding provider are external collaborators:
  they are modelled as abstract function parameters returning `Except`.
* Functions that issue client calls return the list of issued calls (the
  trace) together with the outcome, so "no request is issued" is the trace
  being empty.
* Python exception classes are collapsed to an error datatype; the exact
  message texts are abridged where the source builds them with f-strings.
-/

namespace VecStore

/-- A JSON-like metadata map (`dict` in the source); an empty list models the
empty dict `{}`, which is falsy in Python. -/
abbrev Meta := List (String × String)

/-! ## `schemas.py`: `SearchItem.snippet`

The text is modelled as `List Char`; `max_len` is a natural number (every
use in the repository passes a non-negative literal, default 160). -/

/-- Python slice `s[-t:]` for `t ≥ 0`: the whole list when `t = 0`
(Python's `s[-0:]` is `s[0:]`), otherwise the last `t` elements. -/
def pyTailSlice (t : Nat) (s : List Char) : List Char :=
  if t = 0 then s else s.drop (s.length - t)

/-- `SearchItem.snippet` from `src/src/vectorstore/schemas.py`:
return full text when it fits, hard head-truncation when `max_len ≤ 3`,
otherwise `head ++ "..." ++ tail` with the 3-character separator subtracted
from the budget and the head getting the floor half. -/
def snippet (text : List Char) (max_len : Nat) : List Char :=
  if text.length ≤ max_len then text
  else if max_len ≤ 3 then text.take max_len
  else
    let budget := max_len - 3
    let head_len := budget / 2
    let tail_len := budget - head_len
    text.take head_len ++ ('.' :: '.' :: '.' :: []) ++ pyTailSlice tail_len text

/-- Number of positions at which the three-character separator `"..."`
occurs as a (possibly overlapping) substring. -/
def tripleDotCount : List Char → Nat
  | [] => 0
  | c :: rest =>
    (if (c :: rest).take 3 = ['.', '.', '.'] then 1 else 0) + tripleDotCount rest

/-! ## `retriever.py`: `_create_batches` -/

/-- `_create_batches` from `src/src/vectorstore/retriever.py`: split a list
into consecutive chunks of `batch_size` elements (the last chunk may be
shorter).  In Python a zero step raises `ValueError` in `range`; the model
returns `[]` there and all theorems assume `0 < batch_size`, which holds for
every batch size the repository uses (32 or 1024). -/
def create_batches (items : List α) (batch_size : Nat) : List (List α) :=
  if batch_size = 0 then []
  else if _h : items.isEmpty then []
  else
    items.take batch_size :: create_batches (items.drop batch_size) batch_size
termination_by items.length
decreasing_by
  simp only [List.length_drop]
  have hpos : 0 < items.length := by
    cases items with
    | nil => simp at _h
    | cons a as => simp
  omega

/-- Left-to-right effectful map in the `Except` monad, stopping at the first
error: models a Python loop whose body may raise. -/
def mapExcept (f : α → Except ε β) : List α → Except ε (List β)
  | [] => .ok []
  | a :: as =>
    match f a with
    | .error e => .error e
    | .ok b =>
      match mapExcept f as with
      | .error e => .error e
      | .ok bs => .ok (b :: bs)

/-! ## `data_store.py`: `DataVectorStore`

The Milvus client is an abstract parameter; `ε` is its exception type.
Store operations return the list of client calls they issued (in order)
paired with the outcome. -/

/-- Errors raised by store operations: `validation` models the `ValueError`s
raised before any client call (the spec's `ValidationError`), `client`
wraps an exception propagated from the index client. -/
inductive StoreErr (ε : Type) where
  | validation : String → StoreErr ε
  | client : ε → StoreErr ε
deriving DecidableEq

/-- Whether a store outcome is a validation error (a `ValueError` raised by
the store's own checks). -/
def isValidation : Except (StoreErr ε) α → Bool
  | .error (.validation _) => true
  | _ => false

/-- One row of an upsert payload.  `metadata = none` models a row dict with
no `"metadata"` key (the base row); `metadata = some m` models the key being
present with the JSON map `m`. -/
structure Row where
  id : String
  text : String
  text_dense : List ℚ
  metadata : Option Meta
deriving DecidableEq

/-- Python `metadatas[i] or {}` (line 150 of `data_store.py`): `None` and the
empty dict are falsy, so both collapse to the empty map. -/
def pyOrEmptyMeta (m : Option Meta) : Meta :=
  match m with
  | none => []
  | some [] => []
  | some l => l

/-- The `for payload in attempts` loop of `DataVectorStore.upsert`
(lines 155-165): try each payload in order, return on the first success,
and after the loop re-raise the error of the last failed attempt.  Returns
the payloads actually sent paired with the outcome. -/
def runAttempts (client : List Row → Except ε Unit) :
    List (List Row) → List (List Row) × Except ε Unit
  | [] => ([], .ok ())
  | p :: rest =>
    match client p with
    | .ok _ => ([p], .ok ())
    | .error e =>
      match rest with
      | [] => ([p], .error e)
      | q :: qs =>
        let r := runAttempts client (q :: qs)
        (p :: r.1, r.2)

/-- The `base_rows` list comprehension of `upsert` (lines 139-142): one row
per index with `id`, `text` and `text_dense` and no metadata key. -/
def baseRows (ids texts : List String) (dense_vectors : List (List ℚ)) :
    List Row :=
  (List.range ids.length).map (fun i =>
    { id := ids.getD i "", text := texts.getD i "",
      text_dense := dense_vectors.getD i [], metadata := none })

/-- The metadata-bearing payload of `upsert` (lines 147-151): each base row
with `new_row["metadata"] = metadatas[i] or \x7b\x7d` attached. -/
def withMetadata (base_rows : List Row) (ms : List (Option Meta)) :
    List Row :=
  base_rows.zipWith (fun row m => { row with metadata := some (pyOrEmptyMeta m) }) ms

/-- The `attempts` list of `upsert` (lines 144-153): metadata payload first
when `metadatas` is supplied, then the base payload. -/
def upsertAttempts (base_rows : List Row) :
    Option (List (Option Meta)) → List (List Row)
  | some ms => [withMetadata base_rows ms, base_rows]
  | none => [base_rows]

/-- `DataVectorStore.upsert` (lines 120-165 of `data_store.py`).
`client` models `self.client.upsert` applied to one payload; `dim` models
`self.embedder.dim` (the collection dimension).  Returns the payloads issued
to the client (empty on validation failure) and the outcome. -/
def upsert (client : List Row → Except ε Unit) (dim : Nat)
    (ids texts : List String) (dense_vectors : List (List ℚ))
    (metadatas : Option (List (Option Meta))) :
    List (List Row) × Except (StoreErr ε) Unit :=
  if ¬ (ids.length = texts.length ∧ texts.length = dense_vectors.length) then
    ([], .error (.validation "ids, texts, dense_vectors must be the same length"))
  else if metadatas.any (fun ms => ms.length ≠ ids.length) then
    ([], .error (.validation "metadatas (if provided) must be the same length as ids"))
  else if dense_vectors.any (fun v => v.length ≠ dim) then
    ([], .error (.validation "dense_vectors dim mismatch with collection"))
  else
    let r := runAttempts client (upsertAttempts (baseRows ids texts dense_vectors) metadatas)
    (r.1, r.2.mapError .client)

/-- The payload of an `AnnSearchRequest`: dense query vectors or raw query
texts (the sparse/BM25 request). -/
inductive AnnData where
  | dense : List (List ℚ) → AnnData
  | sparse : List String → AnnData
deriving DecidableEq

/-- An `AnnSearchRequest` as built in `hybrid_search` (lines 203-217). -/
structure AnnReq where
  data : AnnData
  anns_field : String
  param : String × ℚ
  limit : Nat
  expr : Option String
deriving DecidableEq

/-- One invocation of `self.client.hybrid_search` (lines 222-240): the two
sub-requests, the fused ranker weights, the final limit, the projected output
fields and the optional search-params hint dict (modelled by its only value,
`"iterative_filter"`). -/
structure HybridCall where
  reqs : List AnnReq
  ranker : ℚ × ℚ
  limit : Nat
  output_fields : List String
  search_params : Option String
deriving DecidableEq

/-- Python truthiness step of `a or b`: an absent (`None`) or empty sequence
falls through. -/
def pyTruthy (o : Option (List ℚ)) : Option (List ℚ) :=
  match o with
  | none => none
  | some [] => none
  | some (w :: ws) => some (w :: ws)

/-- `weights = ranker_weights or self.ranker_weights or (0.5, 0.5)`
(line 197 of `data_store.py`). -/
def resolveWeights (call_w store_w : Option (List ℚ)) : List ℚ :=
  match pyTruthy call_w with
  | some w => w
  | none =>
    match pyTruthy store_w with
    | some w => w
    | none => [1/2, 1/2]

/-- The oversampled candidate-pool size `int(min(16384, max(512, limit * 10)))`
used for both sub-requests (lines 207 and 215). -/
def candidatePool (limit : Nat) : Nat :=
  min 16384 (max 512 (limit * 10))

/-- `WeightedRanker(weights[0], weights[1])` (line 200): the pair of fusion
weights handed to the index. -/
def rankerPair (w : List ℚ) : ℚ × ℚ :=
  (w.getD 0 0, w.getD 1 0)

/-- The dense `AnnSearchRequest` of `hybrid_search` (lines 203-209). -/
def reqDense (query_denses : List (List ℚ)) (limit : Nat)
    (filter_expression : Option String) : AnnReq :=
  { data := .dense query_denses, anns_field := "text_dense",
    param := ("nprobe", 10), limit := candidatePool limit,
    expr := filter_expression }

/-- The sparse `AnnSearchRequest` of `hybrid_search` (lines 211-217). -/
def reqSparse (query_texts : List String) (limit : Nat)
    (filter_expression : Option String) : AnnReq :=
  { data := .sparse query_texts, anns_field := "text_sparse",
    param := ("drop_ratio_search", 1/5), limit := candidatePool limit,
    expr := filter_expression }

/-- The `search_params` hint dict (lines 193-195): present exactly when a
filter expression was supplied. -/
def searchParams (filter_expression : Option String) : Option String :=
  match filter_expression with
  | some _ => some "iterative_filter"
  | none => none

/-- The first `client.hybrid_search` invocation (lines 222-230): requests
the `metadata` output field and passes the hint. -/
def firstCall (query_texts : List String) (query_denses : List (List ℚ))
    (limit : Nat) (ranker : ℚ × ℚ) (filter_expression : Option String) :
    HybridCall :=
  { reqs := [reqDense query_denses limit filter_expression,
             reqSparse query_texts limit filter_expression],
    ranker := ranker, limit := limit,
    output_fields := ["id", "text", "text_dense", "metadata"],
    search_params := searchParams filter_expression }

/-- The fallback `client.hybrid_search` invocation (lines 233-240): same
sub-requests, ranker and limit, but without the `metadata` output field —
and without `search_params`, which the fallback call does not pass. -/
def retryCall (query_texts : List String) (query_denses : List (List ℚ))
    (limit : Nat) (ranker : ℚ × ℚ) (filter_expression : Option String) :
    HybridCall :=
  { reqs := [reqDense query_denses limit filter_expression,
             reqSparse query_texts limit filter_expression],
    ranker := ranker, limit := limit,
    output_fields := ["id", "text", "text_dense"],
    search_params := none }

/-- `DataVectorStore.hybrid_search` (lines 167-240 of `data_store.py`).
`client` models `self.client.hybrid_search`; its per-query result sets have
the abstract type `σ`; `dim` models `self.embedder.dim`; `store_w` models
`self.ranker_weights` from construction; `filter_expression` is the popped
kwarg.  Returns the issued calls and the outcome. -/
def hybrid_search (client : HybridCall → Except ε (List σ)) (dim : Nat)
    (store_w : Option (List ℚ)) (query_texts : List String)
    (query_denses : List (List ℚ)) (limit : Nat)
    (ranker_weights : Option (List ℚ)) (filter_expression : Option String) :
    List HybridCall × Except (StoreErr ε) (List σ) :=
  if query_texts.length ≠ query_denses.length then
    ([], .error (.validation "query_texts and query_denses must have the same length"))
  else if query_texts.isEmpty then
    ([], .ok [])
  else if query_denses.any (fun v => v.length ≠ dim) then
    ([], .error (.validation "query_denses dim mismatch with collection"))
  else
    if (resolveWeights ranker_weights store_w).length ≠ 2 then
      ([], .error (.validation "ranker_weights must contain two values (dense, sparse)"))
    else
      match client (firstCall query_texts query_denses limit
          (rankerPair (resolveWeights ranker_weights store_w)) filter_expression) with
      | .ok r =>
        ([firstCall query_texts query_denses limit
            (rankerPair (resolveWeights ranker_weights store_w)) filter_expression],
          .ok r)
      | .error _ =>
        -- Older collection without 'metadata': retry without it.
        ([firstCall query_texts query_denses limit
            (rankerPair (resolveWeights ranker_weights store_w)) filter_expression,
          retryCall query_texts query_denses limit
            (rankerPair (resolveWeights ranker_weights store_w)) filter_expression],
          (client (retryCall query_texts query_denses limit
            (rankerPair (resolveWeights ranker_weights store_w)) filter_expression)).mapError
            .client)

/-! ## `embeddings.py`: `Embedder`

The provider (`self._emb`) is modelled by its two possibly-absent methods;
the mutable dimension cache (`self.__dict__["dim"]`) is the explicit state. -/

/-- The dimension-cache state of an `Embedder` instance: `dim = some d` once
a dimension has been cached (from configuration or a first embedding). -/
structure EmbedderState where
  dim : Option Nat
deriving DecidableEq

/-- Errors raised by `Embedder.embed_documents` when the provider lacks the
batch method. -/
inductive EmbErr where
  | notImplemented : EmbErr
deriving DecidableEq

/-- The embedding backend `self._emb`: `embedQuery`/`embedDocuments` are
`none` when the backend does not expose the corresponding method
(`hasattr` checks in the source). -/
structure EmbProvider where
  embedQuery : Option (String → List ℚ)
  embedDocuments : Option (List String → List (List ℚ))

/-- `Embedder._cache_dim` (lines 104-114 of `embeddings.py`): cache the
dimension once; on a mismatch with the cached value only a warning is
logged and the state is left unchanged. -/
def cache_dim (st : EmbedderState) (new_dim : Nat) : EmbedderState :=
  match st.dim with
  | none => { st with dim := some new_dim }
  | some _ => st

/-- `Embedder.embed_documents` (lines 116-130): empty input returns `[]`
without touching the provider; a provider without the batch method raises;
otherwise the provider's vectors are returned unchanged and the dimension is
cached opportunistically when the first vector is non-empty. -/
def embed_documents (p : EmbProvider) (st : EmbedderState)
    (texts : List String) : EmbedderState × Except EmbErr (List (List ℚ)) :=
  if texts.isEmpty then (st, .ok [])
  else
    match p.embedDocuments with
    | none => (st, .error .notImplemented)
    | some f =>
      (if ¬ (f texts).isEmpty ∧ ¬ ((f texts).headD []).isEmpty then
          cache_dim st ((f texts).headD []).length
        else st,
       .ok (f texts))

/-- `Embedder.embed_query` (lines 132-147): use the provider's `embed_query`
when present, otherwise fall back to `embed_documents [text]`; cache the
dimension when the vector is non-empty; return the vector unchanged. -/
def embed_query (p : EmbProvider) (st : EmbedderState) (text : String) :
    EmbedderState × Except EmbErr (List ℚ) :=
  match p.embedQuery with
  | some f =>
    (if ¬ (f text).isEmpty then cache_dim st (f text).length else st,
     .ok (f text))
  | none =>
    match embed_documents p st [text] with
    | (st', .error e) => (st', .error e)
    | (st', .ok res) =>
      (if ¬ (res.headD []).isEmpty then cache_dim st' (res.headD []).length
        else st',
       .ok (res.headD []))

/-! ## `retriever.py`: hit normalization and batched retrieval

Hits returned by the index are mapping-like records; UUID parsing (Python's
`uuid.UUID`) is an external library function, modelled as an abstract
partial parser `String → Option υ`. -/

/-- One search hit as consumed by `_batch_results_to_items`: `id` is the
already-stringified identifier `str(hit.get("id"))`; missing `text`,
`metadata` and `distance` are `none`. -/
structure Hit where
  id : String
  text : Option String
  metadata : Option Meta
  distance : Option ℚ
deriving DecidableEq

/-- The unparsable-identifier error (`ValueError` from `uuid.UUID`; the
spec's `DataIntegrityError`). -/
inductive DataIntegrityErr where
  | badUUID : String → DataIntegrityErr
deriving DecidableEq

/-- A `SearchItem` (`schemas.py`) with the parsed-UUID type abstract. -/
structure SearchItemM (υ : Type) where
  id : υ
  text : String
  distance : Option ℚ
  metadata : Option Meta
deriving DecidableEq

/-- The per-hit body of `Retriever._batch_results_to_items` (lines 78-105 of
`retriever.py`): parse the identifier as a UUID (raising on failure), default
a missing text to `""`, keep metadata only when it is a map. -/
def hitToItem (parseUUID : String → Option υ) (h : Hit) :
    Except DataIntegrityErr (SearchItemM υ) :=
  match parseUUID h.id with
  | none => .error (.badUUID h.id)
  | some pid =>
    .ok { id := pid, text := h.text.getD "", distance := h.distance,
          metadata := h.metadata }

/-- `Retriever._batch_results_to_items` (lines 70-107): convert each result
set of a batch hybrid-search response into a list of `SearchItem`s; an
unparsable identifier aborts the conversion with the error. -/
def batch_results_to_items (parseUUID : String → Option υ)
    (results : List (List Hit)) :
    Except DataIntegrityErr (List (List (SearchItemM υ))) :=
  mapExcept (fun rs => mapExcept (hitToItem parseUUID) rs) results

/-- The list branch of `Retriever.retrieve` (lines 137-161): embed all
queries up front (`embed` models `self.embedder.embed_documents`), split
queries and embeddings into chunks of `bs = DEFAULT_BATCH_SIZE`, invoke the
store's hybrid search once per chunk (`hs` models `self.store.hybrid_search`
restricted to its texts/denses/limit arguments), convert each batch result
and concatenate. -/
def retrieve (hs : List String → List (List ℚ) → Nat → List (List Hit))
    (parseUUID : String → Option υ) (embed : List String → List (List ℚ))
    (queries : List String) (limit bs : Nat) :
    Except DataIntegrityErr (List (List (SearchItemM υ))) :=
  (mapExcept
      (fun p => batch_results_to_items parseUUID (hs p.1 p.2 limit))
      ((create_batches queries bs).zip (create_batches (embed queries) bs))).map
    List.flatten

/-! ## Lemmas about `snippet` -/

theorem tdc_nodot (s : List Char) (hs : ∀ c ∈ s, c ≠ '.') :
    tripleDotCount s = 0 := by
  induction s with
  | nil => rfl
  | cons c rest ih =>
    have hc : c ≠ '.' := hs c (by simp)
    have hne : (c :: rest).take 3 ≠ ['.', '.', '.'] := by
      intro hEq
      cases rest with
      | nil => simp at hEq
      | cons d r2 =>
        simp at hEq
        exact hc hEq.1
    simp only [tripleDotCount, if_neg hne, Nat.zero_add]
    exact ih (fun x hx => hs x (by simp [hx]))

theorem tdc_one_dot (b : List Char) (hb : ∀ c ∈ b, c ≠ '.') :
    tripleDotCount ('.' :: b) = 0 := by
  have hne : ('.' :: b).take 3 ≠ ['.', '.', '.'] := by
    intro hEq
    cases b with
    | nil => simp at hEq
    | cons d r2 =>
      simp at hEq
      exact hb d (by simp) hEq.1
  simp only [tripleDotCount, if_neg hne, Nat.zero_add]
  exact tdc_nodot b hb

theorem tdc_two_dot (b : List Char) (hb : ∀ c ∈ b, c ≠ '.') :
    tripleDotCount ('.' :: '.' :: b) = 0 := by
  have hne : ('.' :: '.' :: b).take 3 ≠ ['.', '.', '.'] := by
    intro hEq
    cases b with
    | nil => simp at hEq
    | cons d r2 =>
      simp at hEq
      exact hb d (by simp) hEq
  simp only [tripleDotCount, if_neg hne, Nat.zero_add]
  exact tdc_one_dot b hb

theorem tdc_sep (a b : List Char) (ha : ∀ c ∈ a, c ≠ '.')
    (hb : ∀ c ∈ b, c ≠ '.') :
    tripleDotCount (a ++ '.' :: '.' :: '.' :: b) = 1 := by
  induction a with
  | nil =>
    rw [List.nil_append, tripleDotCount]
    have h3 : ('.' :: '.' :: '.' :: b).take 3 = ['.', '.', '.'] := by simp
    rw [if_pos h3, tdc_two_dot b hb]
  | cons c rest ih =>
    have hc : c ≠ '.' := ha c (by simp)
    have hih := ih (fun x hx => ha x (by simp [hx]))
    rw [List.cons_append, tripleDotCount]
    have hne : (c :: (rest ++ '.' :: '.' :: '.' :: b)).take 3 ≠ ['.', '.', '.'] := by
      intro hEq
      have hc' : c = '.' := by
        have hh := congrArg List.head? hEq
        simpa using hh
      exact hc hc'
    rw [if_neg hne, hih]

theorem snippet_of_fits (text : List Char) (max_len : Nat)
    (h : text.length ≤ max_len) : snippet text max_len = text := by
  simp [snippet, h]

theorem snippet_small (text : List Char) (max_len : Nat) (h : max_len ≤ 3) :
    snippet text max_len = text.take max_len := by
  by_cases hf : text.length ≤ max_len
  · rw [snippet_of_fits text max_len hf, List.take_of_length_le hf]
  · simp [snippet, hf, h]

theorem snippet_long (text : List Char) (max_len : Nat)
    (hml : 3 < max_len) (hlen : max_len < text.length) :
    snippet text max_len =
      text.take ((max_len - 3) / 2) ++ ['.', '.', '.'] ++
        text.drop (text.length - ((max_len - 3) - (max_len - 3) / 2)) := by
  have h1 : ¬ text.length ≤ max_len := by omega
  have h2 : ¬ max_len ≤ 3 := by omega
  have ht : (max_len - 3) - (max_len - 3) / 2 ≠ 0 := by omega
  simp [snippet, h1, h2, pyTailSlice, ht]

theorem snippet_length_long (text : List Char) (max_len : Nat)
    (hml : 3 < max_len) (hlen : max_len < text.length) :
    (snippet text max_len).length = max_len := by
  rw [snippet_long text max_len hml hlen]
  simp only [List.length_append, List.length_take, List.length_drop,
    List.length_cons, List.length_nil]
  omega

/-- C6 (amended): `snippet` returns the text unchanged when it fits; hard
head-truncation when `max_len ≤ 3`; otherwise the first `(max_len-3)/2`
characters, then `...`, then the last `(max_len-3) - (max_len-3)/2`
characters, with `len(result) = max_len` for longer text and
`len(result) ≤ max_len` for all `max_len > 3`; and for `max_len ∈ {4,…,10}`
applied to a longer text **containing no `'.'` character** the result
contains exactly one `...` separator.  (The original claim asserted the
exactly-one-separator property for every longer text; it fails when the
text itself contributes dots adjacent to the separator.) -/
theorem claimC6_snippet (text : List Char) (max_len : Nat) :
    (text.length ≤ max_len → snippet text max_len = text)
    ∧ (max_len ≤ 3 → snippet text max_len = text.take max_len)
    ∧ (3 < max_len → (snippet text max_len).length ≤ max_len)
    ∧ (3 < max_len → max_len < text.length →
        snippet text max_len =
          text.take ((max_len - 3) / 2) ++ ['.', '.', '.'] ++
            text.drop (text.length - ((max_len - 3) - (max_len - 3) / 2))
          ∧ (snippet text max_len).length = max_len)
    ∧ (4 ≤ max_len → max_len ≤ 10 → max_len < text.length →
        (∀ c ∈ text, c ≠ '.') →
        tripleDotCount (snippet text max_len) = 1) := by
  refine ⟨snippet_of_fits text max_len, snippet_small text max_len, ?_, ?_, ?_⟩
  · intro hml
    by_cases hf : text.length ≤ max_len
    · rw [snippet_of_fits text max_len hf]; exact hf
    · push_neg at hf
      exact le_of_eq (snippet_length_long text max_len hml hf)
  · intro hml hlen
    exact ⟨snippet_long text max_len hml hlen,
      snippet_length_long text max_len hml hlen⟩
  · intro h4 _h10 hlen hdot
    rw [snippet_long text max_len (by omega) hlen]
    rw [List.append_assoc]
    exact tdc_sep _ _
      (fun c hc => hdot c (List.take_subset _ _ hc))
      (fun c hc => hdot c (List.drop_subset _ _ hc))

/-- Counterexample to C6 as stated: for the 6-character text `"......"`
(longer than `max_len = 4`) the snippet is `"...."`, which contains the
`...` separator at two positions, not exactly one. -/
theorem claimC6_counterexample :
    4 < (List.replicate 6 '.').length ∧
    tripleDotCount (snippet (List.replicate 6 '.') 4) ≠ 1 := by decide

/-- Witness for `claimC6_snippet` at the 8-character dot-free text
`"abcdefgh"` with `max_len = 5`. -/
theorem claimC6_witness :
    snippet ['a', 'b', 'c', 'd', 'e', 'f', 'g', 'h'] 5
      = ['a', 'b', 'c', 'd', 'e', 'f', 'g', 'h'].take 1 ++ ['.', '.', '.'] ++
          ['a', 'b', 'c', 'd', 'e', 'f', 'g', 'h'].drop 7
    ∧ (snippet ['a', 'b', 'c', 'd', 'e', 'f', 'g', 'h'] 5).length = 5
    ∧ tripleDotCount (snippet ['a', 'b', 'c', 'd', 'e', 'f', 'g', 'h'] 5) = 1 := by
  have h := claimC6_snippet ['a', 'b', 'c', 'd', 'e', 'f', 'g', 'h'] 5
  have h4 := h.2.2.2.1 (by decide) (by decide)
  have h5 := h.2.2.2.2 (by decide) (by decide) (by decide) (by decide)
  exact ⟨h4.1, h4.2, h5⟩

/-! ## Validation claims about `DataVectorStore` -/

/-- C1: every `upsert` call with mismatched `ids`/`texts`/`dense_vectors`
lengths, a supplied `metadatas` of mismatched length, or a dense vector of
the wrong dimension, and every `hybrid_search` call with
`len(query_texts) ≠ len(query_denses)` or a query vector of the wrong
dimension, fails with a validation error and issues no request to the index
client (the call trace is empty). -/
theorem claimC1_validation_no_call :
    (∀ (ε : Type) (client : List Row → Except ε Unit) (dim : Nat)
        (ids texts : List String) (dense_vectors : List (List ℚ))
        (metadatas : Option (List (Option Meta))),
      (¬ (ids.length = texts.length ∧ texts.length = dense_vectors.length)
        ∨ (∃ ms, metadatas = some ms ∧ ms.length ≠ ids.length)
        ∨ (∃ v ∈ dense_vectors, v.length ≠ dim)) →
      (upsert client dim ids texts dense_vectors metadatas).1 = []
        ∧ isValidation (upsert client dim ids texts dense_vectors metadatas).2
            = true)
    ∧ (∀ (ε σ : Type) (client : HybridCall → Except ε (List σ)) (dim : Nat)
        (store_w : Option (List ℚ)) (query_texts : List String)
        (query_denses : List (List ℚ)) (limit : Nat)
        (ranker_weights : Option (List ℚ)) (fe : Option String),
      (query_texts.length ≠ query_denses.length
        ∨ (∃ v ∈ query_denses, v.length ≠ dim)) →
      (hybrid_search client dim store_w query_texts query_denses limit
          ranker_weights fe).1 = []
        ∧ isValidation (hybrid_search client dim store_w query_texts
            query_denses limit ranker_weights fe).2 = true) := by
  constructor
  · intro ε client dim ids texts dense_vectors metadatas h
    unfold upsert
    by_cases h1 : ids.length = texts.length ∧ texts.length = dense_vectors.length
    case neg =>
      rw [if_pos h1]
      exact ⟨rfl, rfl⟩
    case pos =>
      rw [if_neg (not_not_intro h1)]
      by_cases h2 : (metadatas.any fun ms => ms.length ≠ ids.length) = true
      case pos =>
        rw [if_pos h2]
        exact ⟨rfl, rfl⟩
      case neg =>
        rw [if_neg h2]
        have h3 : dense_vectors.any (fun v => v.length ≠ dim) = true := by
          rcases h with h | ⟨ms, hms, hlen⟩ | ⟨v, hv, hvd⟩
          · exact absurd h1 h
          · exfalso
            apply h2
            subst hms
            simp only [Option.any_some, decide_eq_true_eq]
            exact hlen
          · simp only [List.any_eq_true, decide_eq_true_eq]
            exact ⟨v, hv, hvd⟩
        rw [if_pos h3]
        exact ⟨rfl, rfl⟩
  · intro ε σ client dim store_w query_texts query_denses limit ranker_weights fe h
    unfold hybrid_search
    by_cases h1 : query_texts.length ≠ query_denses.length
    case pos =>
      rw [if_pos h1]
      exact ⟨rfl, rfl⟩
    case neg =>
      rw [if_neg h1]
      push_neg at h1
      obtain ⟨v, hv, hvd⟩ := h.resolve_left (not_not_intro h1)
      have hdne : query_denses ≠ [] := by
        intro hnil; subst hnil; simp at hv
      have hne : ¬ query_texts.isEmpty = true := by
        cases query_texts with
        | nil => exact absurd (List.length_eq_zero.mp h1.symm) hdne
        | cons a as => simp
      rw [if_neg hne]
      have h3 : query_denses.any (fun v => v.length ≠ dim) = true := by
        simp only [List.any_eq_true, decide_eq_true_eq]
        exact ⟨v, hv, hvd⟩
      rw [if_pos h3]
      exact ⟨rfl, rfl⟩

/-- Witness for `claimC1_validation_no_call`: an `upsert` with an id but no
texts/vectors, and a `hybrid_search` whose single query vector has
dimension 1 against a collection of dimension 2; both fail with a validation
error and an empty call trace. -/
theorem claimC1_witness :
    ((upsert (fun _ => (Except.ok () : Except Unit Unit)) 2 ["a"] [] [] none).1 = []
      ∧ isValidation
          (upsert (fun _ => (Except.ok () : Except Unit Unit)) 2 ["a"] [] [] none).2
          = true)
    ∧ ((hybrid_search (fun _ => (Except.ok [] : Except Unit (List Unit)))
          2 none ["q"] [[1]] 5 none none).1 = []
      ∧ isValidation
          (hybrid_search (fun _ => (Except.ok [] : Except Unit (List Unit)))
            2 none ["q"] [[1]] 5 none none).2 = true) :=
  ⟨claimC1_validation_no_call.1 Unit (fun _ => Except.ok ()) 2 ["a"] [] [] none
      (Or.inl (by decide)),
    claimC1_validation_no_call.2 Unit Unit (fun _ => Except.ok []) 2 none
      ["q"] [[1]] 5 none none (Or.inr ⟨[1], by simp, by decide⟩)⟩

/-! ## The upsert attempt loop -/

theorem runAttempts_head_ok (client : List Row → Except ε Unit)
    (p : List Row) (rest : List (List Row)) (hc : client p = .ok ()) :
    runAttempts client (p :: rest) = ([p], .ok ()) := by
  cases rest with
  | nil => unfold runAttempts; rw [hc]
  | cons q qs => unfold runAttempts; rw [hc]

theorem runAttempts_single_err (client : List Row → Except ε Unit)
    (p : List Row) (e : ε) (hc : client p = .error e) :
    runAttempts client [p] = ([p], .error e) := by
  unfold runAttempts
  rw [hc]

theorem runAttempts_cons_err (client : List Row → Except ε Unit)
    (p q : List Row) (qs : List (List Row)) (e : ε)
    (hc : client p = .error e) :
    runAttempts client (p :: q :: qs)
      = ((p :: (runAttempts client (q :: qs)).1),
          (runAttempts client (q :: qs)).2) := by
  conv_lhs => unfold runAttempts
  rw [hc]

/-- On inputs passing all three validation checks, `upsert` runs the attempt
loop over `upsertAttempts` and wraps client errors. -/
theorem upsert_valid (client : List Row → Except ε Unit) (dim : Nat)
    (ids texts : List String) (dense_vectors : List (List ℚ))
    (metadatas : Option (List (Option Meta)))
    (h1 : ids.length = texts.length ∧ texts.length = dense_vectors.length)
    (h2 : ¬ (metadatas.any fun ms => ms.length ≠ ids.length) = true)
    (h3 : ¬ (dense_vectors.any fun v => v.length ≠ dim) = true) :
    upsert client dim ids texts dense_vectors metadatas
      = ((runAttempts client
            (upsertAttempts (baseRows ids texts dense_vectors) metadatas)).1,
         (runAttempts client
            (upsertAttempts (baseRows ids texts dense_vectors) metadatas)).2.mapError
           .client) := by
  unfold upsert
  rw [if_neg (not_not_intro h1), if_neg h2, if_neg h3]

/-- C3: on validated input with `metadatas` supplied, `upsert` first writes
the metadata-bearing payload; if that succeeds it stops after one write; on
failure it retries exactly once with the same rows minus the metadata field,
succeeding if the retry succeeds and raising the second attempt's error if
both fail.  Without `metadatas`, exactly one write (the metadata-less
payload) is attempted and its outcome is returned. -/
theorem claimC3_upsert_metadata_fallback (ε : Type)
    (client : List Row → Except ε Unit) (dim : Nat)
    (ids texts : List String) (dense_vectors : List (List ℚ))
    (hlen : ids.length = texts.length ∧ texts.length = dense_vectors.length)
    (hdim : ∀ v ∈ dense_vectors, v.length = dim) :
    (∀ ms, ms.length = ids.length →
      (client (withMetadata (baseRows ids texts dense_vectors) ms) = .ok () →
        upsert client dim ids texts dense_vectors (some ms)
          = ([withMetadata (baseRows ids texts dense_vectors) ms], .ok ()))
      ∧ (∀ e, client (withMetadata (baseRows ids texts dense_vectors) ms) = .error e →
          client (baseRows ids texts dense_vectors) = .ok () →
          upsert client dim ids texts dense_vectors (some ms)
            = ([withMetadata (baseRows ids texts dense_vectors) ms,
                baseRows ids texts dense_vectors], .ok ()))
      ∧ (∀ e₁ e₂, client (withMetadata (baseRows ids texts dense_vectors) ms) = .error e₁ →
          client (baseRows ids texts dense_vectors) = .error e₂ →
          upsert client dim ids texts dense_vectors (some ms)
            = ([withMetadata (baseRows ids texts dense_vectors) ms,
                baseRows ids texts dense_vectors], .error (.client e₂))))
    ∧ (upsert client dim ids texts dense_vectors none
        = ([baseRows ids texts dense_vectors],
            (client (baseRows ids texts dense_vectors)).mapError .client)) := by
  have h3 : ¬ (dense_vectors.any fun v => v.length ≠ dim) = true := by
    simp only [List.any_eq_true, decide_eq_true_eq, not_exists]
    intro v
    simp only [not_and, not_not]
    exact hdim v
  constructor
  · intro ms hms
    have h2 : ¬ ((some ms).any fun l => l.length ≠ ids.length) = true := by
      simp [hms]
    refine ⟨?_, ?_, ?_⟩
    · intro hc
      rw [upsert_valid client dim ids texts dense_vectors (some ms) hlen h2 h3]
      rw [upsertAttempts, runAttempts_head_ok client _ _ hc]
      rfl
    · intro e hc1 hc2
      rw [upsert_valid client dim ids texts dense_vectors (some ms) hlen h2 h3]
      rw [upsertAttempts, runAttempts_cons_err client _ _ _ e hc1,
        runAttempts_head_ok client _ _ hc2]
      rfl
    · intro e₁ e₂ hc1 hc2
      rw [upsert_valid client dim ids texts dense_vectors (some ms) hlen h2 h3]
      rw [upsertAttempts, runAttempts_cons_err client _ _ _ e₁ hc1,
        runAttempts_single_err client _ e₂ hc2]
      rfl
  · rw [upsert_valid client dim ids texts dense_vectors none hlen (by simp) h3]
    rw [upsertAttempts]
    cases hc : client (baseRows ids texts dense_vectors) with
    | ok u =>
      cases u
      rw [runAttempts_head_ok client _ _ hc]
    | error e =>
      rw [runAttempts_single_err client _ e hc]

/-- Witness for `claimC3_upsert_metadata_fallback`: a mock client that
rejects any payload containing a metadata key and accepts the base payload;
the metadata-bearing upsert falls back and succeeds after two attempts. -/
theorem claimC3_witness :
    upsert
        (fun rows => if rows.any (fun r => r.metadata.isSome)
          then (Except.error () : Except Unit Unit) else Except.ok ())
        2 ["a"] ["x"] [[1/10, 1/5]] (some [some [("k", "1")]])
      = ([withMetadata (baseRows ["a"] ["x"] [[1/10, 1/5]]) [some [("k", "1")]],
          baseRows ["a"] ["x"] [[1/10, 1/5]]], .ok ()) :=
  ((claimC3_upsert_metadata_fallback Unit
      (fun rows => if rows.any (fun r => r.metadata.isSome)
        then Except.error () else Except.ok ())
      2 ["a"] ["x"] [[1/10, 1/5]] (by decide) (by decide)).1
    [some [("k", "1")]] (by decide)).2.1 () rfl rfl

/-- C10: on a validated metadata-bearing upsert, the first payload sent to
the client is the base rows with metadata attached, where a `None` or empty
(`falsy`) entry is replaced by the empty map; in particular every row of
that payload carries some (possibly empty) metadata map — never a null. -/
theorem claimC10_metadata_never_null (ε : Type)
    (client : List Row → Except ε Unit) (dim : Nat)
    (ids texts : List String) (dense_vectors : List (List ℚ))
    (ms : List (Option Meta))
    (hlen : ids.length = texts.length ∧ texts.length = dense_vectors.length)
    (hms : ms.length = ids.length)
    (hdim : ∀ v ∈ dense_vectors, v.length = dim) :
    (upsert client dim ids texts dense_vectors (some ms)).1.head?
        = some (withMetadata (baseRows ids texts dense_vectors) ms)
    ∧ (∀ row ∈ withMetadata (baseRows ids texts dense_vectors) ms,
        ∃ m, row.metadata = some m)
    ∧ pyOrEmptyMeta none = [] ∧ pyOrEmptyMeta (some []) = [] := by
  have h2 : ¬ ((some ms).any fun l => l.length ≠ ids.length) = true := by
    simp [hms]
  have h3 : ¬ (dense_vectors.any fun v => v.length ≠ dim) = true := by
    simp only [List.any_eq_true, decide_eq_true_eq, not_exists]
    intro v
    simp only [not_and, not_not]
    exact hdim v
  refine ⟨?_, ?_, rfl, rfl⟩
  · rw [upsert_valid client dim ids texts dense_vectors (some ms) hlen h2 h3]
    rw [upsertAttempts]
    cases hc : client (withMetadata (baseRows ids texts dense_vectors) ms) with
    | ok u =>
      cases u
      rw [runAttempts_head_ok client _ _ hc]
      rfl
    | error e =>
      rw [runAttempts_cons_err client _ _ _ e hc]
      rfl
  · unfold withMetadata
    generalize baseRows ids texts dense_vectors = base
    clear h2 hms
    induction base generalizing ms with
    | nil => simp
    | cons r rs ih =>
      cases ms with
      | nil => simp
      | cons m mtl =>
        intro row hrow
        rcases List.mem_cons.mp hrow with hrow | hrow
        · subst hrow
          exact ⟨pyOrEmptyMeta m, rfl⟩
        · exact ih mtl row hrow

/-- Witness for `claimC10_metadata_never_null`: a two-row upsert where the
first metadata entry is `None` and the second is a one-key map; the first
issued payload carries the empty map for the first row. -/
theorem claimC10_witness :
    (upsert (fun _ => (Except.ok () : Except Unit Unit)) 1
        ["a", "b"] ["x", "y"] [[1], [2]] (some [none, some [("k", "1")]])).1.head?
        = some (withMetadata (baseRows ["a", "b"] ["x", "y"] [[1], [2]])
            [none, some [("k", "1")]])
    ∧ (∀ row ∈ withMetadata (baseRows ["a", "b"] ["x", "y"] [[1], [2]])
          [none, some [("k", "1")]], ∃ m, row.metadata = some m)
    ∧ pyOrEmptyMeta none = [] ∧ pyOrEmptyMeta (some []) = [] :=
  claimC10_metadata_never_null Unit (fun _ => Except.ok ()) 1
    ["a", "b"] ["x", "y"] [[1], [2]] [none, some [("k", "1")]]
    (by decide) (by decide) (by decide)

/-! ## The hybrid search call structure -/

/-- On inputs passing all validation checks, `hybrid_search` issues the
first call and, on failure, the retry call. -/
theorem hybrid_search_valid_eq (client : HybridCall → Except ε (List σ))
    (dim : Nat) (store_w : Option (List ℚ)) (query_texts : List String)
    (query_denses : List (List ℚ)) (limit : Nat)
    (ranker_weights : Option (List ℚ)) (fe : Option String)
    (h1 : query_texts.length = query_denses.length)
    (h2 : query_texts.isEmpty = false)
    (h3 : ∀ v ∈ query_denses, v.length = dim)
    (h4 : (resolveWeights ranker_weights store_w).length = 2) :
    hybrid_search client dim store_w query_texts query_denses limit
        ranker_weights fe
      = match client (firstCall query_texts query_denses limit
            (rankerPair (resolveWeights ranker_weights store_w)) fe) with
        | .ok r =>
          ([firstCall query_texts query_denses limit
              (rankerPair (resolveWeights ranker_weights store_w)) fe], .ok r)
        | .error _ =>
          ([firstCall query_texts query_denses limit
              (rankerPair (resolveWeights ranker_weights store_w)) fe,
            retryCall query_texts query_denses limit
              (rankerPair (resolveWeights ranker_weights store_w)) fe],
            (client (retryCall query_texts query_denses limit
              (rankerPair (resolveWeights ranker_weights store_w)) fe)).mapError
              .client) := by
  have h3b : ¬ (query_denses.any fun v => v.length ≠ dim) = true := by
    simp only [List.any_eq_true, decide_eq_true_eq, not_exists]
    intro v
    simp only [not_and, not_not]
    exact h3 v
  unfold hybrid_search
  rw [if_neg (not_not_intro h1), if_neg (by simp [h2]), if_neg h3b,
    if_neg (not_not_intro h4)]

/-- C4: on every `hybrid_search` call that reaches the index, the dense and
the sparse sub-request each ask for a candidate pool of exactly
`min(16384, max(512, limit * 10))` candidates. -/
theorem claimC4_candidate_pool (ε σ : Type)
    (client : HybridCall → Except ε (List σ)) (dim : Nat)
    (store_w : Option (List ℚ)) (query_texts : List String)
    (query_denses : List (List ℚ)) (limit : Nat)
    (ranker_weights : Option (List ℚ)) (fe : Option String)
    (h1 : query_texts.length = query_denses.length)
    (h2 : query_texts.isEmpty = false)
    (h3 : ∀ v ∈ query_denses, v.length = dim)
    (h4 : (resolveWeights ranker_weights store_w).length = 2) :
    (hybrid_search client dim store_w query_texts query_denses limit
        ranker_weights fe).1 ≠ []
    ∧ ∀ c ∈ (hybrid_search client dim store_w query_texts query_denses limit
        ranker_weights fe).1,
        c.reqs.map AnnReq.limit
          = [min 16384 (max 512 (limit * 10)), min 16384 (max 512 (limit * 10))] := by
  rw [hybrid_search_valid_eq client dim store_w query_texts query_denses limit
    ranker_weights fe h1 h2 h3 h4]
  cases client (firstCall query_texts query_denses limit
      (rankerPair (resolveWeights ranker_weights store_w)) fe) with
  | ok r =>
    refine ⟨by simp, ?_⟩
    intro c hc
    simp only [List.mem_singleton] at hc
    subst hc
    simp [firstCall, reqDense, reqSparse, candidatePool]
  | error e =>
    refine ⟨by simp, ?_⟩
    intro c hc
    rcases List.mem_pair.mp hc with hc | hc <;> subst hc <;>
      simp [firstCall, retryCall, reqDense, reqSparse, candidatePool]

/-- Witness for `claimC4_candidate_pool`: a single query with `limit = 5`
yields sub-requests asking for `max(512, 50) = 512` candidates. -/
theorem claimC4_witness :
    (hybrid_search (fun _ => (Except.ok [] : Except Unit (List Unit)))
        1 none ["q"] [[1]] 5 none none).1 ≠ []
    ∧ ∀ c ∈ (hybrid_search (fun _ => (Except.ok [] : Except Unit (List Unit)))
        1 none ["q"] [[1]] 5 none none).1,
        c.reqs.map AnnReq.limit
          = [min 16384 (max 512 (5 * 10)), min 16384 (max 512 (5 * 10))] :=
  claimC4_candidate_pool Unit Unit (fun _ => Except.ok []) 1 none
    ["q"] [[1]] 5 none none (by decide) (by decide) (by decide) (by decide)

/-- Counterexample to C7 as stated: supplying the empty tuple `()` as
`ranker_weights` (length 0 ≠ 2) does **not** fail — Python's `or` treats the
falsy empty sequence as absent, so the call silently falls back to the
default weights and a request is issued. -/
theorem claimC7_counterexample :
    ([] : List ℚ).length ≠ 2
    ∧ resolveWeights (some []) none = [1/2, 1/2]
    ∧ (hybrid_search (fun _ => (Except.ok [] : Except Unit (List Unit)))
        1 none ["q"] [[1]] 5 (some []) none).1 ≠ []
    ∧ isValidation (hybrid_search
        (fun _ => (Except.ok [] : Except Unit (List Unit)))
        1 none ["q"] [[1]] 5 (some []) none).2 = false := by
  refine ⟨by decide, rfl, ?_, rfl⟩
  decide

/-- C7 (amended): when no ranker weights are supplied at the call site or at
store construction — or when every supplied value is an empty sequence,
which Python's `or` treats as absent — score fusion uses equal weights
`(0.5, 0.5)` on every issued call; and whenever a **non-empty** ranker
weights value supplied at the call site has length ≠ 2, a call passing the
earlier input validation fails with a validation error before any index
request is issued. -/
theorem claimC7_ranker_weights :
    (∀ (cw sw : Option (List ℚ)), pyTruthy cw = none → pyTruthy sw = none →
      resolveWeights cw sw = [1/2, 1/2])
    ∧ (∀ (ε σ : Type) (client : HybridCall → Except ε (List σ)) (dim : Nat)
        (query_texts : List String) (query_denses : List (List ℚ))
        (limit : Nat) (fe : Option String) (cw sw : Option (List ℚ)),
        pyTruthy cw = none → pyTruthy sw = none →
        query_texts.length = query_denses.length →
        query_texts.isEmpty = false →
        (∀ v ∈ query_denses, v.length = dim) →
        (hybrid_search client dim sw query_texts query_denses limit cw fe).1 ≠ []
        ∧ ∀ c ∈ (hybrid_search client dim sw query_texts query_denses limit
            cw fe).1, c.ranker = (1/2, 1/2))
    ∧ (∀ (ε σ : Type) (client : HybridCall → Except ε (List σ)) (dim : Nat)
        (query_texts : List String) (query_denses : List (List ℚ))
        (limit : Nat) (fe : Option String) (sw : Option (List ℚ)) (w : List ℚ),
        w ≠ [] → w.length ≠ 2 →
        query_texts.length = query_denses.length →
        query_texts.isEmpty = false →
        (∀ v ∈ query_denses, v.length = dim) →
        (hybrid_search client dim sw query_texts query_denses limit
            (some w) fe).1 = []
        ∧ isValidation (hybrid_search client dim sw query_texts query_denses
            limit (some w) fe).2 = true) := by
  have hdefault : ∀ (cw sw : Option (List ℚ)), pyTruthy cw = none →
      pyTruthy sw = none → resolveWeights cw sw = [1/2, 1/2] := by
    intro cw sw h1 h2
    unfold resolveWeights
    rw [h1, h2]
  refine ⟨hdefault, ?_, ?_⟩
  · intro ε σ client dim query_texts query_denses limit fe cw sw hcw hsw h1 h2 h3
    have hres := hdefault cw sw hcw hsw
    have h4 : (resolveWeights cw sw).length = 2 := by rw [hres]; rfl
    rw [hybrid_search_valid_eq client dim sw query_texts query_denses limit
      cw fe h1 h2 h3 h4]
    rw [hres]
    cases client (firstCall query_texts query_denses limit
        (rankerPair [1/2, 1/2]) fe) with
    | ok r =>
      refine ⟨by simp, ?_⟩
      intro c hc
      simp only [List.mem_singleton] at hc
      subst hc
      rfl
    | error e =>
      refine ⟨by simp, ?_⟩
      intro c hc
      rcases List.mem_pair.mp hc with hc | hc <;> subst hc <;> rfl
  · intro ε σ client dim query_texts query_denses limit fe sw w hw hwlen h1 h2 h3
    have h3b : ¬ (query_denses.any fun v => v.length ≠ dim) = true := by
      simp only [List.any_eq_true, decide_eq_true_eq, not_exists]
      intro v
      simp only [not_and, not_not]
      exact h3 v
    have hres : resolveWeights (some w) sw = w := by
      cases w with
      | nil => exact absurd rfl hw
      | cons a as => rfl
    have hbad : (resolveWeights (some w) sw).length ≠ 2 := by
      rw [hres]; exact hwlen
    unfold hybrid_search
    rw [if_neg (not_not_intro h1), if_neg (by simp [h2]), if_neg h3b,
      if_pos hbad]
    exact ⟨rfl, rfl⟩

/-- Witness for `claimC7_ranker_weights`: with no weights anywhere the
issued call carries ranker `(1/2, 1/2)`; a supplied `[1, 2, 3]` (length 3)
fails with a validation error and no call. -/
theorem claimC7_witness :
    resolveWeights none none = [1/2, 1/2]
    ∧ ((hybrid_search (fun _ => (Except.ok [] : Except Unit (List Unit)))
          1 none ["q"] [[1]] 5 none none).1 ≠ []
        ∧ ∀ c ∈ (hybrid_search (fun _ => (Except.ok [] : Except Unit (List Unit)))
            1 none ["q"] [[1]] 5 none none).1, c.ranker = (1/2, 1/2))
    ∧ ((hybrid_search (fun _ => (Except.ok [] : Except Unit (List Unit)))
          1 none ["q"] [[1]] 5 (some [1, 2, 3]) none).1 = []
        ∧ isValidation (hybrid_search
            (fun _ => (Except.ok [] : Except Unit (List Unit)))
            1 none ["q"] [[1]] 5 (some [1, 2, 3]) none).2 = true) :=
  ⟨claimC7_ranker_weights.1 none none rfl rfl,
    claimC7_ranker_weights.2.1 Unit Unit (fun _ => Except.ok []) 1
      ["q"] [[1]] 5 none none none rfl rfl (by decide) (by decide) (by decide),
    claimC7_ranker_weights.2.2 Unit Unit (fun _ => Except.ok []) 1
      ["q"] [[1]] 5 none none [1, 2, 3] (by decide) (by decide) (by decide)
      (by decide) (by decide)⟩

/-- Counterexample to C2 as stated: with a filter predicate supplied and a
client that rejects any request naming `metadata` among the output fields,
the first call carries the iterative-filter hint but the retry does **not**
(`search_params` is not passed on the fallback call), so the retried search
is not identical in its filter-hint handling. -/
theorem claimC2_counterexample :
    ((hybrid_search
        (fun c => if "metadata" ∈ c.output_fields
          then (Except.error () : Except Unit (List Unit)) else Except.ok [])
        1 none ["q"] [[1]] 5 none (some "type == 1")).1.map
        HybridCall.search_params)
      = [some "iterative_filter", none]
    ∧ ((hybrid_search
        (fun c => if "metadata" ∈ c.output_fields
          then (Except.error () : Except Unit (List Unit)) else Except.ok [])
        1 none ["q"] [[1]] 5 none (some "type == 1")).1.map
        HybridCall.output_fields)
      = [["id", "text", "text_dense", "metadata"], ["id", "text", "text_dense"]] := by
  decide

/-- C2 (amended): when the first index call (which requests the `metadata`
output field) fails, the search is retried exactly once with the same dense
and sparse sub-requests (identical filter expressions on both), the same
ranker and limit, with `metadata` removed from the requested output fields —
but **without** the iterative-filter `search_params` hint, which the
fallback call does not pass; the retry's result is returned, and only if
the retry also fails does the error surface.  When the first call succeeds
no retry happens. -/
theorem claimC2_metadata_retry (ε σ : Type)
    (client : HybridCall → Except ε (List σ)) (dim : Nat)
    (store_w : Option (List ℚ)) (query_texts : List String)
    (query_denses : List (List ℚ)) (limit : Nat)
    (ranker_weights : Option (List ℚ)) (fe : Option String)
    (h1 : query_texts.length = query_denses.length)
    (h2 : query_texts.isEmpty = false)
    (h3 : ∀ v ∈ query_denses, v.length = dim)
    (h4 : (resolveWeights ranker_weights store_w).length = 2) :
    (∀ r, client (firstCall query_texts query_denses limit
          (rankerPair (resolveWeights ranker_weights store_w)) fe) = .ok r →
        hybrid_search client dim store_w query_texts query_denses limit
            ranker_weights fe
          = ([firstCall query_texts query_denses limit
              (rankerPair (resolveWeights ranker_weights store_w)) fe], .ok r))
    ∧ (∀ e, client (firstCall query_texts query_denses limit
          (rankerPair (resolveWeights ranker_weights store_w)) fe) = .error e →
        hybrid_search client dim store_w query_texts query_denses limit
            ranker_weights fe
          = ([firstCall query_texts query_denses limit
                (rankerPair (resolveWeights ranker_weights store_w)) fe,
              retryCall query_texts query_denses limit
                (rankerPair (resolveWeights ranker_weights store_w)) fe],
             (client (retryCall query_texts query_denses limit
                (rankerPair (resolveWeights ranker_weights store_w)) fe)).mapError
               .client))
    ∧ (∀ (ranker : ℚ × ℚ),
        (retryCall query_texts query_denses limit ranker fe).reqs
            = (firstCall query_texts query_denses limit ranker fe).reqs
        ∧ (retryCall query_texts query_denses limit ranker fe).ranker
            = (firstCall query_texts query_denses limit ranker fe).ranker
        ∧ (retryCall query_texts query_denses limit ranker fe).limit
            = (firstCall query_texts query_denses limit ranker fe).limit
        ∧ (firstCall query_texts query_denses limit ranker fe).output_fields
            = ["id", "text", "text_dense", "metadata"]
        ∧ (retryCall query_texts query_denses limit ranker fe).output_fields
            = ["id", "text", "text_dense"]
        ∧ (firstCall query_texts query_denses limit ranker fe).search_params
            = searchParams fe
        ∧ (retryCall query_texts query_denses limit ranker fe).search_params
            = none) := by
  refine ⟨?_, ?_, ?_⟩
  · intro r hc
    rw [hybrid_search_valid_eq client dim store_w query_texts query_denses
      limit ranker_weights fe h1 h2 h3 h4, hc]
  · intro e hc
    rw [hybrid_search_valid_eq client dim store_w query_texts query_denses
      limit ranker_weights fe h1 h2 h3 h4, hc]
  · intro ranker
    exact ⟨rfl, rfl, rfl, rfl, rfl, rfl, rfl⟩

/-- Witness for `claimC2_metadata_retry`: a client that rejects requests
naming `metadata` makes the concrete search return the fallback call's
result after exactly two calls. -/
theorem claimC2_witness :
    hybrid_search
        (fun c => if "metadata" ∈ c.output_fields
          then (Except.error () : Except Unit (List Unit)) else Except.ok [])
        1 none ["q"] [[1]] 5 none (some "type == 1")
      = ([firstCall ["q"] [[1]] 5 (rankerPair (resolveWeights none none))
            (some "type == 1"),
          retryCall ["q"] [[1]] 5 (rankerPair (resolveWeights none none))
            (some "type == 1")],
         ((fun (c : HybridCall) => if "metadata" ∈ c.output_fields
            then (Except.error () : Except Unit (List Unit)) else Except.ok [])
            (retryCall ["q"] [[1]] 5 (rankerPair (resolveWeights none none))
              (some "type == 1"))).mapError StoreErr.client) :=
  (claimC2_metadata_retry Unit Unit
      (fun c => if "metadata" ∈ c.output_fields
        then Except.error () else Except.ok [])
      1 none ["q"] [[1]] 5 none (some "type == 1")
      (by decide) (by decide) (by decide) (by decide)).2.1 () rfl

/-! ## Chunking and effectful-map lemmas for the retriever -/

theorem create_batches_nil (bs : Nat) :
    create_batches ([] : List α) bs = [] := by
  unfold create_batches
  simp

theorem create_batches_cons (l : List α) (bs : Nat) (hbs : bs ≠ 0)
    (hl : l ≠ []) :
    create_batches l bs = l.take bs :: create_batches (l.drop bs) bs := by
  conv_lhs => unfold create_batches
  rw [if_neg hbs, dif_neg (by simp [hl])]

theorem mapExcept_cons (f : α → Except ε β) (a : α) (as : List α) :
    mapExcept f (a :: as)
      = match f a with
        | .error e => .error e
        | .ok b => (mapExcept f as).map (fun bs => b :: bs) := by
  cases hfa : f a with
  | error e => simp [mapExcept, hfa]
  | ok b =>
    cases has : mapExcept f as with
    | error e => simp [mapExcept, hfa, has, Except.map]
    | ok bs => simp [mapExcept, hfa, has, Except.map]

theorem mapExcept_append (f : α → Except ε β) (l₁ l₂ : List α) :
    mapExcept f (l₁ ++ l₂)
      = match mapExcept f l₁ with
        | .error e => .error e
        | .ok b₁ => (mapExcept f l₂).map (fun b₂ => b₁ ++ b₂) := by
  induction l₁ with
  | nil =>
    cases h₂ : mapExcept f l₂ with
    | error e => simp [mapExcept, h₂, Except.map]
    | ok b₂ => simp [mapExcept, h₂, Except.map]
  | cons a as ih =>
    rw [List.cons_append, mapExcept_cons, mapExcept_cons]
    cases hfa : f a with
    | error e => rfl
    | ok b =>
      rw [ih]
      cases h₁ : mapExcept f as with
      | error e => rfl
      | ok b₁ =>
        cases h₂ : mapExcept f l₂ with
        | error e => rfl
        | ok b₂ => rfl

theorem mapExcept_map (g : α → β) (f : β → Except ε γ) (l : List α) :
    mapExcept f (l.map g) = mapExcept (fun a => f (g a)) l := by
  induction l with
  | nil => rfl
  | cons a as ih => rw [List.map_cons, mapExcept_cons, mapExcept_cons, ih]

theorem mapExcept_congr (f g : α → Except ε β) (l : List α)
    (h : ∀ a ∈ l, f a = g a) :
    mapExcept f l = mapExcept g l := by
  induction l with
  | nil => rfl
  | cons a as ih =>
    rw [mapExcept_cons, mapExcept_cons, h a (by simp),
      ih (fun x hx => h x (by simp [hx]))]

theorem mapExcept_ok_forall (f : α → Except ε β) (l : List α) (bs : List β)
    (hok : mapExcept f l = .ok bs) : ∀ a ∈ l, ∃ b, f a = .ok b := by
  induction l generalizing bs with
  | nil => simp
  | cons x xs ih =>
    rw [mapExcept_cons] at hok
    cases hfx : f x with
    | error e => rw [hfx] at hok; exact absurd hok (by simp)
    | ok b =>
      rw [hfx] at hok
      cases hxs : mapExcept f xs with
      | error e => rw [hxs] at hok; exact absurd hok (by simp [Except.map])
      | ok bs' =>
        intro a ha
        rcases List.mem_cons.mp ha with ha | ha
        · exact ⟨b, ha ▸ hfx⟩
        · exact ih bs' hxs a ha

theorem mapExcept_ok_mem_rev (f : α → Except ε β) (l : List α) (bs : List β)
    (hok : mapExcept f l = .ok bs) : ∀ b ∈ bs, ∃ a ∈ l, f a = .ok b := by
  induction l generalizing bs with
  | nil =>
    simp only [mapExcept] at hok
    injection hok with hbs
    subst hbs
    simp
  | cons x xs ih =>
    rw [mapExcept_cons] at hok
    cases hfx : f x with
    | error e => rw [hfx] at hok; exact absurd hok (by simp)
    | ok b =>
      rw [hfx] at hok
      cases hxs : mapExcept f xs with
      | error e => rw [hxs] at hok; exact absurd hok (by simp [Except.map])
      | ok bs' =>
        rw [hxs] at hok
        simp only [Except.map, Except.ok.injEq] at hok
        subst hok
        intro c hc
        rcases List.mem_cons.mp hc with hc | hc
        · exact ⟨x, by simp, hc ▸ hfx⟩
        · obtain ⟨a, ha, hfa⟩ := ih bs' hxs c hc
          exact ⟨a, by simp [ha], hfa⟩

/-- Chunks of equal-length lists pair up with equal lengths. -/
theorem zip_chunks_length (xs : List α) (ys : List β) (bs : Nat)
    (h : xs.length = ys.length) :
    ∀ p ∈ (create_batches xs bs).zip (create_batches ys bs),
      p.1.length = p.2.length := by
  by_cases hbs : bs = 0
  · subst hbs
    unfold create_batches
    simp
  · have main : ∀ (n : Nat) (xs : List α) (ys : List β),
        xs.length = ys.length → xs.length = n →
        ∀ p ∈ (create_batches xs bs).zip (create_batches ys bs),
          p.1.length = p.2.length := by
      intro n
      induction n using Nat.strong_induction_on with
      | _ n ih =>
        intro xs ys h hn
        cases xs with
        | nil =>
          rw [create_batches_nil]
          simp
        | cons x xt =>
          have hyne : ys ≠ [] := by
            intro hy
            subst hy
            simp at h
          rw [create_batches_cons (x :: xt) bs hbs (by simp),
            create_batches_cons ys bs hbs hyne, List.zip_cons_cons]
          intro p hp
          rcases List.mem_cons.mp hp with hp | hp
          · subst hp
            simp [h]
          · refine ih ((x :: xt).drop bs).length ?_ _ _ (by simp [h]) rfl p hp
            subst hn
            simp only [List.length_drop]
            have : 0 < (x :: xt).length := by simp
            omega
    exact main xs.length xs ys h rfl

/-- The key batching identity: splitting two equal-length lists into chunks,
running a per-pair effectful map chunk-wise and flattening the per-chunk
results is the same as running the map over the full zipped list. -/
theorem chunked_pointwise (f : α × β → Except ε (List γ)) (bs : Nat)
    (hbs : bs ≠ 0) (xs : List α) (ys : List β) (h : xs.length = ys.length) :
    (mapExcept (fun p => mapExcept f (p.1.zip p.2))
        ((create_batches xs bs).zip (create_batches ys bs))).map List.flatten
      = mapExcept f (xs.zip ys) := by
  have main : ∀ (n : Nat) (xs : List α) (ys : List β),
      xs.length = ys.length → xs.length = n →
      (mapExcept (fun p => mapExcept f (p.1.zip p.2))
          ((create_batches xs bs).zip (create_batches ys bs))).map List.flatten
        = mapExcept f (xs.zip ys) := by
    intro n
    induction n using Nat.strong_induction_on with
    | _ n ih =>
      intro xs ys h hn
      cases xs with
      | nil =>
        have hy : ys = [] := List.length_eq_zero.mp (by simpa using h.symm)
        subst hy
        rw [create_batches_nil]
        rfl
      | cons x xt =>
        have hyne : ys ≠ [] := by
          intro hy
          subst hy
          simp at h
        rw [create_batches_cons (x :: xt) bs hbs (by simp),
          create_batches_cons ys bs hbs hyne, List.zip_cons_cons,
          mapExcept_cons]
        have htake : ((x :: xt).take bs).zip (ys.take bs)
            = ((x :: xt).zip ys).take bs := by
          rw [List.zip_eq_zipWith, List.zip_eq_zipWith, ← List.take_zipWith]
        have hdrop : ((x :: xt).drop bs).zip (ys.drop bs)
            = ((x :: xt).zip ys).drop bs := by
          rw [List.zip_eq_zipWith, List.zip_eq_zipWith, ← List.drop_zipWith]
        have hsplit := mapExcept_append f (((x :: xt).zip ys).take bs)
          (((x :: xt).zip ys).drop bs)
        rw [List.take_append_drop] at hsplit
        have hih : (mapExcept (fun p => mapExcept f (p.1.zip p.2))
              ((create_batches ((x :: xt).drop bs) bs).zip
                (create_batches (ys.drop bs) bs))).map List.flatten
            = mapExcept f (((x :: xt).drop bs).zip (ys.drop bs)) := by
          refine ih ((x :: xt).drop bs).length ?_ _ _ (by simp [h]) rfl
          subst hn
          simp only [List.length_drop]
          have : 0 < (x :: xt).length := by simp
          omega
        rw [hsplit]
        cases hA : mapExcept f (((x :: xt).zip ys).take bs) with
        | error e =>
          have hA' : mapExcept f (((x :: xt).take bs).zip (ys.take bs))
              = .error e := by
            rw [htake, hA]
          rw [hA']
          rfl
        | ok b₁ =>
          have hA' : mapExcept f (((x :: xt).take bs).zip (ys.take bs))
              = .ok b₁ := by
            rw [htake, hA]
          rw [hA']
          rw [hdrop] at hih
          cases hR : mapExcept (fun p => mapExcept f (p.1.zip p.2))
              ((create_batches ((x :: xt).drop bs) bs).zip
                (create_batches (ys.drop bs) bs)) with
          | error e =>
            rw [hR] at hih
            rw [← hih]
            rfl
          | ok ls =>
            rw [hR] at hih
            rw [← hih]
            rfl
  exact main xs.length xs ys h rfl

/-- C5: when the store's batch hybrid search is per-query (each query's
result list depends only on that query and its embedding, as the index
contract guarantees), `Retriever.retrieve` over fixed-size chunks returns
exactly the per-query result lists, in input order, of a hypothetical single
unbatched `hybrid_search` call over all the queries. -/
theorem claimC5_retrieve_batching (υ : Type)
    (hs : List String → List (List ℚ) → Nat → List (List Hit))
    (F : String × List ℚ → List Hit)
    (parseUUID : String → Option υ) (embed : List String → List (List ℚ))
    (queries : List String) (limit bs : Nat)
    (hbs : bs ≠ 0)
    (hemb : (embed queries).length = queries.length)
    (hpw : ∀ qs ds, qs.length = ds.length →
      hs qs ds limit = (qs.zip ds).map F) :
    retrieve hs parseUUID embed queries limit bs
      = batch_results_to_items parseUUID (hs queries (embed queries) limit) := by
  unfold retrieve
  have hcong : ∀ p ∈ (create_batches queries bs).zip
      (create_batches (embed queries) bs),
      batch_results_to_items parseUUID (hs p.1 p.2 limit)
        = mapExcept (fun q => mapExcept (hitToItem parseUUID) (F q))
            (p.1.zip p.2) := by
    intro p hp
    have hl := zip_chunks_length queries (embed queries) bs hemb.symm p hp
    unfold batch_results_to_items
    rw [hpw p.1 p.2 hl, mapExcept_map]
  rw [mapExcept_congr _ _ _ hcong]
  rw [chunked_pointwise (fun q => mapExcept (hitToItem parseUUID) (F q)) bs
    hbs queries (embed queries) hemb.symm]
  unfold batch_results_to_items
  rw [hpw queries (embed queries) hemb.symm, mapExcept_map]

/-- Witness for `claimC5_retrieve_batching`: five distinguishable queries in
chunks of two (three store calls) give the same result as the unbatched
call. -/
theorem claimC5_witness :
    retrieve
        (fun qs ds _ => (qs.zip ds).map (fun p =>
          [{ id := p.1, text := some p.1, metadata := none, distance := none }]))
        (fun s => some s) (fun qs => qs.map (fun _ => [1]))
        ["a", "b", "c", "d", "e"] 7 2
      = batch_results_to_items (fun s => some s)
          ((["a", "b", "c", "d", "e"].zip
              (["a", "b", "c", "d", "e"].map (fun _ => ([1] : List ℚ)))).map
            (fun p =>
              [{ id := p.1, text := some p.1, metadata := none,
                 distance := none }])) :=
  claimC5_retrieve_batching String
    (fun qs ds _ => (qs.zip ds).map (fun p =>
      [{ id := p.1, text := some p.1, metadata := none, distance := none }]))
    (fun p => [{ id := p.1, text := some p.1, metadata := none,
                 distance := none }])
    (fun s => some s) (fun qs => qs.map (fun _ => [1]))
    ["a", "b", "c", "d", "e"] 7 2
    (by decide) rfl (fun qs ds _ => rfl)

/-- C9: converting store results to `SearchItem`s parses every hit
identifier as a UUID: any hit whose identifier fails to parse makes the
conversion fail with a `DataIntegrityError`, and in a successful conversion
every returned item's id is the successful parse of some hit's identifier. -/
theorem claimC9_uuid_integrity (υ : Type) (parseUUID : String → Option υ)
    (results : List (List Hit)) :
    ((∃ rs ∈ results, ∃ h ∈ rs, parseUUID h.id = none) →
      ∃ e, batch_results_to_items parseUUID results = .error e)
    ∧ (∀ out, batch_results_to_items parseUUID results = .ok out →
        ∀ items ∈ out, ∀ it ∈ items,
          ∃ hit ∈ results.flatten, parseUUID hit.id = some it.id) := by
  constructor
  · rintro ⟨rs, hrs, hhit, hmem, hnone⟩
    cases hb : batch_results_to_items parseUUID results with
    | error e => exact ⟨e, rfl⟩
    | ok out =>
      exfalso
      unfold batch_results_to_items at hb
      obtain ⟨items, hitems⟩ := mapExcept_ok_forall _ _ _ hb rs hrs
      obtain ⟨it, hit⟩ := mapExcept_ok_forall _ _ _ hitems hhit hmem
      unfold hitToItem at hit
      rw [hnone] at hit
      exact absurd hit (by simp)
  · intro out hb items hitems it hit
    unfold batch_results_to_items at hb
    obtain ⟨rs, hrs, hrs_ok⟩ := mapExcept_ok_mem_rev _ _ _ hb items hitems
    obtain ⟨h, hmem, hok⟩ := mapExcept_ok_mem_rev _ _ _ hrs_ok it hit
    refine ⟨h, List.mem_flatten.mpr ⟨rs, hrs, hmem⟩, ?_⟩
    unfold hitToItem at hok
    cases hp : parseUUID h.id with
    | none =>
      rw [hp] at hok
      exact absurd hok (by simp)
    | some pid =>
      rw [hp] at hok
      injection hok with hrec
      rw [← hrec]

/-- Witness for `claimC9_uuid_integrity`: a one-hit result set whose id does
not parse yields an error, and a parsable one-hit result set yields items
whose ids are successful parses. -/
theorem claimC9_witness :
    (∃ e, batch_results_to_items
        (fun s => if s = "good" then some 0 else none)
        [[Hit.mk "bad" none none none]]
      = .error e)
    ∧ (∀ items ∈ [[SearchItemM.mk 0 "t" none none]], ∀ it ∈ items,
        ∃ hit ∈ ([[Hit.mk "good" (some "t") none none]] : List (List Hit)).flatten,
          (fun s => if s = "good" then some 0 else none) hit.id
            = some it.id) :=
  ⟨(claimC9_uuid_integrity Nat (fun s => if s = "good" then some 0 else none)
      [[Hit.mk "bad" none none none]]).1
      ⟨[Hit.mk "bad" none none none], by simp,
        Hit.mk "bad" none none none, by simp, by decide⟩,
    (claimC9_uuid_integrity Nat (fun s => if s = "good" then some 0 else none)
      [[Hit.mk "good" (some "t") none none]]).2
      [[SearchItemM.mk 0 "t" none none]] rfl⟩

/-! ## The embedder's dimension cache -/

theorem cache_dim_cached (st : EmbedderState) (d : Nat)
    (hst : st.dim = some d) (n : Nat) : cache_dim st n = st := by
  unfold cache_dim
  rw [hst]

/-- C8: once the embedder's dimension is cached, no embedding operation
modifies it, and every embedding call succeeds and returns the provider's
vectors unchanged even when their length differs from the cached dimension
(the mismatch is only logged). -/
theorem claimC8_dim_cache_immutable (st : EmbedderState) (d : Nat)
    (hst : st.dim = some d) :
    (∀ n, cache_dim st n = st)
    ∧ (∀ (p : EmbProvider) (text : String),
        ((embed_query p st text).1).dim = some d)
    ∧ (∀ (p : EmbProvider) (f : String → List ℚ) (text : String),
        p.embedQuery = some f →
        embed_query p st text = (st, .ok (f text)))
    ∧ (∀ (p : EmbProvider) (texts : List String),
        ((embed_documents p st texts).1).dim = some d)
    ∧ (∀ (p : EmbProvider) (g : List String → List (List ℚ))
        (texts : List String), p.embedDocuments = some g → texts ≠ [] →
        embed_documents p st texts = (st, .ok (g texts))) := by
  have hcache : ∀ n, cache_dim st n = st := cache_dim_cached st d hst
  have hdocs_eq : ∀ (p : EmbProvider) (g : List String → List (List ℚ))
      (texts : List String), p.embedDocuments = some g → texts ≠ [] →
      embed_documents p st texts = (st, .ok (g texts)) := by
    intro p g texts hg htexts
    unfold embed_documents
    rw [if_neg (by simp [htexts])]
    simp only [hg]
    split
    · rw [hcache]
    · rfl
  have hdocs_st : ∀ (p : EmbProvider) (texts : List String),
      ((embed_documents p st texts).1) = st := by
    intro p texts
    unfold embed_documents
    by_cases he : texts.isEmpty
    · rw [if_pos he]
    · rw [if_neg he]
      cases hpd : p.embedDocuments with
      | none => rfl
      | some g =>
        simp only
        split
        · rw [hcache]
        · rfl
  refine ⟨hcache, ?_, ?_, fun p texts => by rw [hdocs_st p texts]; exact hst,
    hdocs_eq⟩
  · intro p text
    unfold embed_query
    cases hpq : p.embedQuery with
    | some f =>
      simp only
      split
      · rw [hcache]
        exact hst
      · exact hst
    | none =>
      have hst' := hdocs_st p [text]
      cases hed : embed_documents p st [text] with
      | mk st' r =>
        rw [hed] at hst'
        have hst2 : st' = st := hst'
        subst hst2
        cases r with
        | error e => exact hst
        | ok res =>
          simp only
          split
          · rw [hcache]
            exact hst
          · exact hst
  · intro p f text hpq
    unfold embed_query
    simp only [hpq]
    split
    · rw [hcache]
    · rfl

/-- Witness for `claimC8_dim_cache_immutable`: with a cached dimension of 3,
a provider returning 2-dimensional vectors still succeeds, returns them
unchanged, and leaves the cache at 3. -/
theorem claimC8_witness :
    embed_query (EmbProvider.mk (some fun _ => [1, 2]) none)
        (EmbedderState.mk (some 3)) "x"
      = (EmbedderState.mk (some 3), .ok [1, 2])
    ∧ embed_documents (EmbProvider.mk none (some fun _ => [[1, 2]]))
        (EmbedderState.mk (some 3)) ["x"]
      = (EmbedderState.mk (some 3), .ok [[1, 2]]) :=
  ⟨(claimC8_dim_cache_immutable (EmbedderState.mk (some 3)) 3 rfl).2.2.1
      (EmbProvider.mk (some fun _ => [1, 2]) none) (fun _ => [1, 2]) "x" rfl,
    (claimC8_dim_cache_immutable (EmbedderState.mk (some 3)) 3 rfl).2.2.2.2
      (EmbProvider.mk none (some fun _ => [[1, 2]])) (fun _ => [[1, 2]])
      ["x"] rfl (by simp)⟩

end VecStore
